import Mathlib

/-!
Verification of the report-generator core (tensile / VDA / hardness processors
and the shared PPT table utilities) against its natural-language specification.

The Python sources are shallowly embedded:
* a PPT `a:tbl` XML tree becomes `Tbl` (a grid-column count plus a list of
  rows, each row a list of `Tc` cells carrying the `gridSpan` / `vMerge`
  state of their `tcPr` and their paragraph text),
* Python floats are modelled as exact fractions `Frac` (an `Int` numerator
  over a `Nat` denominator, never normalised, so every operation is plain
  integer arithmetic that the kernel can evaluate),
* dynamically typed cell values become `PyVal` (`none`, a string, or a number),
* fallible parsing returns `Option`.

Formatting such as Python's `f"{x:.1f}"` is modelled by exact rational
rounding (round-half-to-even, matching CPython's behaviour on the exactly
representable values used throughout); `statistics.stdev` / `pandas.std`
output is modelled by formatting the rounded square root of the exact sample
variance (`ddof = 1`).
-/

/-! ## Character and list primitives -/

/-- Decimal digit test for a character (models regex `\d` on ASCII and
Python's `str.isdigit` for the identifiers that appear in the data). -/
def isDigitCh (c : Char) : Bool := 48 ≤ c.toNat && c.toNat ≤ 57

/-- Whitespace as stripped by Python's `str.strip()` (ASCII subset; the
inputs contain no exotic Unicode spaces). -/
def isWsCh (c : Char) : Bool :=
  c = ' ' || c = '\t' || c = '\n' || c = '\x0d' || c = '\x0c' || c = '\x0b'

/-- Strip leading and trailing whitespace from a character list
(models `str.strip()`). -/
def stripWsL (l : List Char) : List Char :=
  ((l.dropWhile isWsCh).reverse.dropWhile isWsCh).reverse

/-- Python `str.strip()` on a `String`. -/
def pyStrip (s : String) : String := String.mk (stripWsL s.data)

/-- ASCII lower-casing of one character (models `str.lower()`; non-ASCII
characters such as 平均 are unchanged, as in Python). -/
def lowChar (c : Char) : Char :=
  if 65 ≤ c.toNat ∧ c.toNat ≤ 90 then Char.ofNat (c.toNat + 32) else c

/-- ASCII lower-casing of a string (models `str.lower()`). -/
def lowStr (s : String) : String := String.mk (s.data.map lowChar)

/-- Does `l` start with `pat`?  (Boolean, structurally recursive so the
kernel can evaluate it.) -/
def prefB : List Char → List Char → Bool
  | [], _ => true
  | _ :: _, [] => false
  | p :: ps, c :: cs => (p == c) && prefB ps cs

/-- Does `l` contain `pat` as a contiguous substring?  Models Python's
`pat in s`. -/
def hasSub (l pat : List Char) : Bool :=
  if prefB pat l then true
  else
    match l with
    | [] => false
    | _ :: t => hasSub t pat

/-- Substring test on strings, models Python's `tok in s`. -/
def hasTok (s tok : String) : Bool := hasSub s.data tok.data

/-- Concatenate a list of character lists inserting `sep` between
consecutive elements (models `sep.join(parts)`). -/
def joinSep (sep : List Char) : List (List Char) → List Char
  | [] => []
  | [x] => x
  | x :: y :: t => x ++ sep ++ joinSep sep (y :: t)

/-- Indices of the elements of `l` satisfying `p`, in order. -/
def idxWhere (p : α → Bool) (l : List α) : List Nat :=
  (l.enum.filter (fun x => p x.2)).map (fun x => x.1)

/-! ## Exact fractions (model of Python floats)

Operations never normalise, so the kernel evaluates them with plain
`Int`/`Nat` arithmetic.  The denominator is `0`-free at every use site
(denominators are built from literals, products and powers of ten). -/

structure Frac where
  num : Int
  den : Nat
deriving DecidableEq

/-- Embed an integer. -/
def Frac.ofInt (n : Int) : Frac := ⟨n, 1⟩

/-- Zero. -/
def Frac.zero : Frac := ⟨0, 1⟩

/-- Addition by cross multiplication. -/
def Frac.add (a b : Frac) : Frac := ⟨a.num * b.den + b.num * a.den, a.den * b.den⟩

/-- Subtraction by cross multiplication. -/
def Frac.sub (a b : Frac) : Frac := ⟨a.num * b.den - b.num * a.den, a.den * b.den⟩

/-- Multiplication. -/
def Frac.mul (a b : Frac) : Frac := ⟨a.num * b.num, a.den * b.den⟩

/-- Division by a (positive) natural number. -/
def Frac.divNat (a : Frac) (n : Nat) : Frac := ⟨a.num, a.den * n⟩

/-- Sum of a list of fractions (models `sum` / `statistics.mean`'s numerator). -/
def sumF (l : List Frac) : Frac := l.foldl Frac.add Frac.zero

/-- Arithmetic mean (models `statistics.mean` and `pandas.Series.mean`
exactly, on the rational model of the floats). -/
def meanF (l : List Frac) : Frac := (sumF l).divNat l.length

/-- Exact sample variance with `ddof = 1` (the square of
`statistics.stdev` / `pandas.Series.std(ddof=1)`). -/
def sampleVarF (l : List Frac) : Frac :=
  let m := meanF l
  (sumF (l.map (fun x => (x.sub m).mul (x.sub m)))).divNat (l.length - 1)

/-! ## Decimal formatting (model of `f"{x:.df}"` and `str(float)`) -/

/-- Round `a * 10^d` to the nearest integer, ties to even — CPython's
rounding of an exactly representable value under `format(x, ".df")`. -/
def rndHalfEvenScaled (a : Frac) (d : Nat) : Int :=
  let n : Int := a.num * (10 : Int) ^ d
  let D : Int := (a.den : Int)
  let q : Int := Int.ediv n D
  let r : Int := n - q * D
  if 2 * r < D then q
  else if D < 2 * r then q + 1
  else if q % 2 = 0 then q else q + 1

/-- Render a scaled integer `v` (the value multiplied by `10^d`) as a
fixed-point decimal string with `d` decimals. -/
def renderScaled (v : Int) (d : Nat) : String :=
  if d = 0 then toString v
  else
    let ds : List Char := (toString v.natAbs).data
    let ds : List Char :=
      if ds.length ≤ d then List.replicate (d + 1 - ds.length) '0' ++ ds else ds
    (if v < 0 then "-" else "") ++
      String.mk (ds.take (ds.length - d)) ++ "." ++ String.mk (ds.drop (ds.length - d))

/-- Model of Python `f"{x:.df}"` on the exact fraction `a`. -/
def fmtFixedF (a : Frac) (d : Nat) : String := renderScaled (rndHalfEvenScaled a d) d

/-- Structurally recursive integer square root (fuel-driven linear search;
`isqrtGo n fuel k` walks `k` upward while `(k+1)^2 ≤ n`). -/
def isqrtGo (n : Nat) : Nat → Nat → Nat
  | 0, k => k
  | fuel + 1, k => if (k + 1) * (k + 1) ≤ n then isqrtGo n fuel (k + 1) else k

/-- Integer square root (largest `k` with `k^2 ≤ n`). -/
def isqrt (n : Nat) : Nat := isqrtGo n n 0

/-- Model of Python `f"{sqrt(v):.df}"` for a nonnegative fraction `v`:
the printed digits are `round(sqrt(v) * 10^d)`, computed exactly as
`(isqrt ⌊4 * v * 10^(2d)⌋ + 1) / 2` (half-up at the measure-zero ties). -/
def fmtSqrtF (v : Frac) (d : Nat) : String :=
  let scaled4 : Nat := ((v.num * 4 * (10 : Int) ^ (2 * d))).toNat / v.den
  renderScaled (Int.ofNat ((isqrt scaled4 + 1) / 2)) d

/-! ## Python values and float parsing -/

/-- Dynamically typed value as read from a spreadsheet / document cell. -/
inductive PyVal where
  | none : PyVal
  | str : String → PyVal
  | num : Frac → PyVal
deriving DecidableEq

/-- Digits to a natural number; `Option.none` when some char is not a digit. -/
def digitsVal : List Char → Option Nat
  | [] => some 0
  | c :: t =>
    if isDigitCh c then
      match digitsVal t with
      | some v => some (v + (c.toNat - 48) * 10 ^ t.length)
      | Option.none => Option.none
    else Option.none

/-- Parse a plain decimal literal (optional sign, digits, optional single
point, at least one digit) — the fragment of Python's `float(str)` grammar
exercised by the data files.  Whitespace is stripped as `float` does. -/
def parsePyFloat (s : String) : Option Frac :=
  let cs := stripWsL s.data
  let (sign, cs) : Int × List Char :=
    match cs with
    | '-' :: t => (-1, t)
    | '+' :: t => (1, t)
    | l => (1, l)
  let ip := cs.takeWhile (fun c => c ≠ '.')
  let rest := cs.dropWhile (fun c => c ≠ '.')
  let fp : Option (List Char) :=
    match rest with
    | [] => some []
    | '.' :: t => if t.any (fun c => c = '.') then Option.none else some t
    | _ => Option.none
  match fp with
  | Option.none => Option.none
  | some fpart =>
    if ip.isEmpty ∧ fpart.isEmpty then Option.none
    else
      match digitsVal ip, digitsVal fpart with
      | some iv, some fv =>
        some ⟨sign * ((iv : Int) * 10 ^ fpart.length + (fv : Int)), 10 ^ fpart.length⟩
      | _, _ => Option.none

/-- Model of `pandas.to_numeric(x, errors="coerce")` on one value followed by
`dropna`: `Option.none` is the coerced `NaN` that gets dropped. -/
def toNumericOpt (v : PyVal) : Option Frac :=
  match v with
  | .none => Option.none
  | .num f => some f
  | .str s => parsePyFloat s

/-- Embeds `ppt_utils.to_float`: `float(val) if val is not None else 0.0`
inside `try/except` returning `0.0` on any failure. -/
def to_float (v : PyVal) : Frac :=
  match v with
  | .none => Frac.zero
  | .num f => f
  | .str s =>
    match parsePyFloat s with
    | some f => f
    | Option.none => Frac.zero

example : parsePyFloat "100" = some ⟨100, 1⟩ := by decide
example : parsePyFloat " -2.5 " = some ⟨-25, 10⟩ := by decide
example : parsePyFloat "abc" = Option.none := by decide
example : parsePyFloat "" = Option.none := by decide
example : fmtFixedF ⟨202, 2⟩ 0 = "101" := by decide
example : fmtFixedF ⟨-25, 10⟩ 1 = "-2.5" := by decide
example : fmtFixedF ⟨1, 2⟩ 0 = "0" := by decide
example : fmtSqrtF ⟨2, 1⟩ 0 = "1" := by decide
example : fmtSqrtF ⟨5000, 1⟩ 0 = "71" := by decide
example : lowStr "AvErAge平均" = "average平均" := by decide
example : hasTok "xx平均yy" "平均" = true := by decide

/-! ## PPT table model (DrawingML `a:tbl`)

A cell `Tc` is one `a:tc` element: its optional `a:tcPr` child carries the
horizontal span (`gridSpan` attribute, absent means 1) and the presence of an
`a:vMerge` element; its text body is a list of paragraphs, each a list of
run texts.  A table is its `a:gridCol` count plus its `a:tr` rows. -/

structure TcPr where
  gridSpan : Option Nat
  vMerge : Bool
deriving DecidableEq

structure Tc where
  tcPr : Option TcPr
  paras : List (List String)
deriving DecidableEq

structure Tr where
  tcs : List Tc
deriving DecidableEq

structure Tbl where
  gridCols : Nat
  trs : List Tr
deriving DecidableEq

/-- Effective horizontal span of a cell: `gridSpan` when present, else 1
(exactly how `delete_table_column` reads it). -/
def effSpan (tc : Tc) : Nat :=
  match tc.tcPr with
  | Option.none => 1
  | some p => p.gridSpan.getD 1

/-- Total horizontal span of a row's cells. -/
def rowSpanTotal (tcs : List Tc) : Nat := (tcs.map effSpan).sum

/-- Text of one cell as `python-pptx`'s `text_frame.text` renders it:
paragraphs (runs concatenated) joined by newlines. -/
def cellText (tc : Tc) : String :=
  String.mk (joinSep ['\n'] (tc.paras.map (fun runs => (String.join runs).data)))

/-- Concatenated text of a row, `"".join(c.text_frame.text for c in row.cells)`. -/
def rowText (tr : Tr) : String := String.join (tr.tcs.map cellText)

/-! ### `ppt_utils.delete_table_column` -/

/-- Decrement the `gridSpan` attribute of a cell (the `is_in_span` branch of
`delete_table_column`; the attribute is present with value `> 1` whenever
this branch runs). -/
def decSpanTc (tc : Tc) : Tc :=
  match tc.tcPr with
  | some p =>
    match p.gridSpan with
    | some v => if 1 < v then { tc with tcPr := some { p with gridSpan := some (v - 1) } } else tc
    | Option.none => tc
  | Option.none => tc

/-- Row scan of `delete_table_column`: walk the cells accumulating the visual
column index; at the first cell covering `j`, either shrink its span (span
`> 1`) or remove it (span `= 1`); other cells are kept. -/
def deleteColCells (j : Nat) : Nat → List Tc → List Tc
  | _, [] => []
  | visual, tc :: rest =>
    let s := effSpan tc
    if visual ≤ j ∧ j < visual + s then
      if 1 < s then decSpanTc tc :: rest else rest
    else tc :: deleteColCells j (visual + s) rest

/-- Span of the cell covering visual column `j`, scanning exactly like
`delete_table_column` does (`Option.none` when no cell covers `j`). -/
def coverSpan (j : Nat) : Nat → List Tc → Option Nat
  | _, [] => Option.none
  | visual, tc :: rest =>
    let s := effSpan tc
    if visual ≤ j ∧ j < visual + s then some s
    else coverSpan j (visual + s) rest

/-- Embeds `ppt_utils.delete_table_column`: remove the `j`-th `a:gridCol`
(once, if it exists), then fix every row by the scan above. -/
def delete_table_column (tbl : Tbl) (j : Nat) : Tbl :=
  { gridCols := if j < tbl.gridCols then tbl.gridCols - 1 else tbl.gridCols,
    trs := tbl.trs.map (fun tr => ⟨deleteColCells j 0 tr.tcs⟩) }

/-! ### `ppt_utils.delete_table_row`, `insert_table_row`, `clean_cell_merge_info` -/

/-- Embeds `ppt_utils.delete_table_row` (bounds-checked removal). -/
def delete_table_row (tbl : Tbl) (idx : Nat) : Tbl :=
  if idx < tbl.trs.length then { tbl with trs := tbl.trs.eraseIdx idx } else tbl

/-- Cell cleanup performed on the clone inside `ppt_utils.insert_table_row`:
when `tcPr` is present, remove only `a:vMerge` (never `a:gridSpan`) and
delete every run of every paragraph. -/
def cleanInsTc (tc : Tc) : Tc :=
  match tc.tcPr with
  | some p => { tcPr := some { p with vMerge := false }, paras := tc.paras.map (fun _ => []) }
  | Option.none => tc

/-- Embeds `ppt_utils.insert_table_row`: deep-copy row `source`, clean each
cell as above, insert before row `target` (append when `target` is past the
end). -/
def insert_table_row (tbl : Tbl) (target source : Nat) : Tbl :=
  let src := tbl.trs.getD source ⟨[]⟩
  let newTr : Tr := ⟨src.tcs.map cleanInsTc⟩
  if target < tbl.trs.length then { tbl with trs := tbl.trs.insertIdx target newTr }
  else { tbl with trs := tbl.trs ++ [newTr] }

/-- Embeds `vda_processor.add_table_row`: deep-copy row `clone_idx`,
remove BOTH `a:vMerge` AND `a:gridSpan` from each cell that has a `tcPr`
(text is not cleared), and insert the clone right after the source row. -/
def add_table_row (tbl : Tbl) (clone_idx : Nat) : Tbl :=
  let src := tbl.trs.getD clone_idx ⟨[]⟩
  let newTr : Tr := ⟨src.tcs.map (fun tc =>
    match tc.tcPr with
    | some p => { tc with tcPr := some { p with vMerge := false, gridSpan := Option.none } }
    | Option.none => tc)⟩
  { tbl with trs := tbl.trs.insertIdx (clone_idx + 1) newTr }

/-- Embeds `ppt_utils.clean_cell_merge_info` applied to the cell at
`(r, 0)`: remove only `a:vMerge`, keep `a:gridSpan`. -/
def cleanMergeCol0 (tbl : Tbl) (r : Nat) : Tbl :=
  { tbl with trs := tbl.trs.modify (fun tr =>
      ⟨tr.tcs.modify (fun tc =>
        match tc.tcPr with
        | some p => { tc with tcPr := some { p with vMerge := false } }
        | Option.none => tc) 0⟩) r }

/-- Net text effect of `ppt_utils.format_cell` on the cell at `(r, c)`:
the text frame ends up holding exactly `text` (styling is not modelled,
no claim mentions it).  Out-of-range indices leave the table unchanged;
every call site is bounds-guarded in the source. -/
def setCellText (tbl : Tbl) (r c : Nat) (text : String) : Tbl :=
  { tbl with trs := tbl.trs.modify (fun tr =>
      ⟨tr.tcs.modify (fun tc => { tc with paras := [[text]] }) c⟩) r }

/-! ## Statistics-row markers, page capacity, slide counts -/

/-- Is `tr` a statistics row?  `tensile_processor.generate_report` joins the
row's cell texts, lower-cases, and looks for `"平均"` or `"average"`. -/
def isStatRowT (tr : Tr) : Bool :=
  let txt := lowStr (rowText tr)
  hasTok txt "平均" || hasTok txt "average"

/-- Indices of the statistics rows of a table (the re-scan the source runs
after every structural edit). -/
def statRowIndices (tbl : Tbl) : List Nat := idxWhere isStatRowT tbl.trs

/-- Embeds the page-capacity inference of `tensile_processor.generate_report`
(lines 165-171): count statistics rows of the template's first table,
defaulting to 1 when none are found. -/
def inferPageCapacity (tbl : Tbl) : Nat :=
  let c := tbl.trs.countP isStatRowT
  if c = 0 then 1 else c

/-- Embeds `total_slides = (len(group_names) + GROUPS_PER_SLIDE - 1) // GROUPS_PER_SLIDE`. -/
def total_slides (g p : Nat) : Nat := (g + p - 1) / p

/-- Embeds the per-slide slice `group_names[i*P : (i+1)*P]`. -/
def sliceBatch (names : List String) (p i : Nat) : List String :=
  (names.drop (i * p)).take p

/-- Embeds `vda_processor.process_vda_report`'s hard-coded
`groups_per_slide = 4` (line 112). -/
def vdaGroupsPerSlide : Nat := 4

/-- Embeds `num_slides_needed = (total_groups + groups_per_slide - 1) // groups_per_slide`. -/
def vdaNumSlides (total : Nat) : Nat :=
  (total + vdaGroupsPerSlide - 1) / vdaGroupsPerSlide

/-- Embeds `group_chunks = [unique_groups[i:i+4] for i in range(0, total, 4)]`:
the loop indices are `4*k` for `k < ceil(total/4)`. -/
def vdaChunks (l : List String) : List (List String) :=
  (List.range (vdaNumSlides l.length)).map (fun k => (l.drop (4 * k)).take 4)

/-! ## Statistics aggregation -/

/-- One extracted tensile record (the `item` dict built by
`extract_from_docx` / `extract_from_excel`). -/
structure Item where
  id_num : String
  thick : String
  Rp : Frac
  Rm : Frac
  Ag : Frac
  A : Frac
  has_note : Bool
deriving DecidableEq

/-- Shortest-decimal rendering of `str(float)` for fractions with a finite
decimal expansion (the only values the data paths produce); the search for
the decimal length is fuel-bounded. -/
def findDecLen (num : Int) (den : Nat) : Nat → Nat → Option Nat
  | 0, _ => Option.none
  | fuel + 1, k => if (num * (10 : Int) ^ k) % (den : Int) = 0 then some k else findDecLen num den fuel (k + 1)

/-- Model of Python `str(x)` on a float with finite decimal expansion
(e.g. `str(100.0) = "100.0"`, `str(70.5) = "70.5"`); values without a short
exact expansion fall back to 17 digits. -/
def pyFloatRepr (f : Frac) : String :=
  match findDecLen f.num f.den 25 0 with
  | some k =>
    let d := max k 1
    renderScaled (Int.ediv (f.num * (10 : Int) ^ d) (f.den : Int)) d
  | Option.none => fmtFixedF f 17

/-- Mean-and-deviation display string for one field, from
`tensile_processor.calculate_stats`: `"/"` when no values (dead guard kept
from the source), else `f"{mean:.df}±{stdev:.df}"` with `stdev = 0.0` for a
single value and `statistics.stdev` (`ddof = 1`) otherwise. -/
def statStr (vals : List Frac) (d : Nat) : String :=
  if vals.length = 0 then "/"
  else
    fmtFixedF (meanF vals) d ++ "±" ++
      (if 1 < vals.length then fmtSqrtF (sampleVarF vals) d else fmtFixedF Frac.zero d)

/-- The four display strings `calculate_stats` produces. -/
structure StatsRec where
  Rp : String
  Rm : String
  Ag : String
  A : String
deriving DecidableEq

/-- Embeds `tensile_processor.calculate_stats`: `Rp`/`Rm` at 0 decimals,
`Ag`/`A` at 1 decimal; the empty group returns the empty dict, modelled as
`Option.none`. -/
def calculate_stats (l : List Item) : Option StatsRec :=
  if l = [] then Option.none
  else some
    { Rp := statStr (l.map Item.Rp) 0
      Rm := statStr (l.map Item.Rm) 0
      Ag := statStr (l.map Item.Ag) 1
      A := statStr (l.map Item.A) 1 }

/-- Embeds the text produced by `vda_processor.set_stat_cell`:
`pd.to_numeric(series, errors="coerce").dropna() * factor`, then `"-"` when
empty, else `f"{mean:.df}±{std:.df}"` with `std(ddof=1)` guarded to `0.0`
for a single value. -/
def vdaStatText (series : List PyVal) (d : Nat) (factor : Frac) : String :=
  let nums := (series.filterMap toNumericOpt).map (fun x => x.mul factor)
  if nums.length = 0 then "-"
  else
    fmtFixedF (meanF nums) d ++ "±" ++
      (if 1 < nums.length then fmtSqrtF (sampleVarF nums) d else fmtFixedF Frac.zero d)

/-! ## Identifier parsing -/

/-- First step of `re.sub(r"[\(（].*?[\)）]", "", s)`: from the characters
after an opening bracket, drop up to and including the first closing
bracket. -/
def dropToClose : List Char → Option (List Char)
  | [] => Option.none
  | c :: t => if c = ')' ∨ c = '）' then some t else dropToClose t

/-- Fuel-driven scanner for `re.sub(r"[\(（].*?[\)）]", "", s)`: left to
right, each opening bracket with a later closing bracket deletes the whole
bracketed span; an unmatched opening bracket is kept (the regex does not
match there).  Fuel is the list length, which bounds every recursive call. -/
def stripParensGo : Nat → List Char → List Char
  | 0, l => l
  | _ + 1, [] => []
  | fuel + 1, c :: rest =>
    if c = '(' ∨ c = '（' then
      match dropToClose rest with
      | some rest2 => stripParensGo fuel rest2
      | Option.none => c :: stripParensGo fuel rest
    else c :: stripParensGo fuel rest

/-- Embeds `clean_id = re.sub(r"[\(（].*?[\)）]", "", full_id).strip()`
(shared by `extract_from_docx` and `extract_from_excel`). -/
def cleanId (s : String) : String :=
  String.mk (stripWsL (stripParensGo s.data.length s.data))

/-- Embeds `s.rsplit("-", 1)` for a string containing `"-"`: split at the
last dash. -/
def rsplitDash (s : String) : String × String :=
  let r := s.data.reverse
  let sfxRev := r.takeWhile (fun c => c ≠ '-')
  let restRev := r.dropWhile (fun c => c ≠ '-')
  (String.mk (restRev.drop 1).reverse, String.mk sfxRev.reverse)

/-- Shared split rule (`if "-" in clean_id: ... rsplit ... else (clean_id, "1")`). -/
def splitId (s : String) : String × String :=
  if s.data.contains '-' then rsplitDash s else (s, "1")

/-- Embeds the identifier handling of `extract_from_docx` (lines 38-47):
clean, flag when cleaning changed the id, then split. -/
def docxExtractId (full_id : String) : String × String × Bool :=
  let clean := cleanId full_id
  let has_note : Bool := clean ≠ full_id
  let gn := splitId clean
  (gn.1, gn.2, has_note)

/-- Embeds the row filter of `extract_from_excel` (line 83): a row is kept
only when the cleaned id contains `"-"` and ends in a digit
(`re.search(r"\d$", clean_id)`). -/
def excelRowKept (raw_id : String) : Bool :=
  let clean := cleanId raw_id
  clean.data.contains '-' && (match clean.data.reverse with
    | [] => false
    | c :: _ => isDigitCh c)

/-- Embeds `vda_processor.parse_group`: strip, then split on the last dash
with `"1"` as the default sample number — no parenthetical stripping and no
flagging. -/
def parse_group (sid : String) : String × String :=
  let s := pyStrip sid
  if s.data.contains '-' then rsplitDash s else (s, "1")

/-- Embeds the `item` dict built by `extract_from_excel` (lines 100-108):
every numeric field goes through `to_float`. -/
def excelItem (sample_num : String) (thick_val rp rm ag a : PyVal) (has_note : Bool) : Item :=
  { id_num := sample_num
    thick := match thick_val with
      | PyVal.none => ""
      | PyVal.str s => s
      | PyVal.num f => pyFloatRepr f
    Rp := to_float rp
    Rm := to_float rm
    Ag := to_float ag
    A := to_float a
    has_note := has_note }

example : cleanId "A-07(重测)" = "A-07" := by decide
example : docxExtractId "A-07(重测)" = ("A", "07", true) := by decide
example : docxExtractId "A-07" = ("A", "07", false) := by decide
example : docxExtractId "A" = ("A", "1", false) := by decide
example : parse_group "A-07(重测)" = ("A", "07(重测)") := by decide
example : statStr [⟨100, 1⟩] 0 = "100±0" := by decide
example : statStr [⟨100, 1⟩, ⟨102, 1⟩] 0 = "101±1" := by decide
example : vdaStatText [PyVal.str "abc"] 1 ⟨1, 1⟩ = "-" := by decide
example : pyFloatRepr ⟨100, 1⟩ = "100.0" := by decide
example : pyFloatRepr ⟨141, 2⟩ = "70.5" := by decide

/-! ## Tensile per-slide block loop (`generate_report` lines 193-301) -/

/-- Number of `a:tc` cells of row `r` (`len(row.cells)` in `python-pptx`). -/
def cellsLen (tbl : Tbl) (r : Nat) : Nat := (tbl.trs.getD r ⟨[]⟩).tcs.length

/-- Mark the column-0 cell of row `r` as a vertical-merge continuation cell
(the effect `python-pptx`'s `cell.merge` has on the non-origin cells of a
single-column merge; `gridSpan` is untouched). -/
def markVMerge0 (tbl : Tbl) (r : Nat) : Tbl :=
  { tbl with trs := tbl.trs.modify (fun tr =>
      ⟨tr.tcs.modify (fun tc =>
        match tc.tcPr with
        | some p => { tc with tcPr := some { p with vMerge := true } }
        | Option.none => { tc with tcPr := some { gridSpan := Option.none, vMerge := true } }) 0⟩) r }

/-- Model of `table.cell(top, 0).merge(table.cell(bottom, 0))` for a
single-column range: rows `top+1 .. bottom` become continuation cells. -/
def mergeCol0Rows (tbl : Tbl) (top bottom : Nat) : Tbl :=
  (List.range (bottom - top)).foldl (fun t k => markVMerge0 t (top + 1 + k)) tbl

/-- Row-growing loop of `generate_report` (lines 236-239): `k` times insert a
clone of row `start` before the statistics row, bumping its index. -/
def growRows (start : Nat) : Nat → Tbl → Nat → Tbl × Nat
  | 0, tbl, stat => (tbl, stat)
  | k + 1, tbl, stat => growRows start k (insert_table_row tbl stat start) (stat + 1)

/-- Row-shrinking loop of `generate_report` (lines 240-243): `k` times delete
the row just above the statistics row. -/
def shrinkRows : Nat → Tbl → Nat → Tbl × Nat
  | 0, tbl, stat => (tbl, stat)
  | k + 1, tbl, stat => shrinkRows k (delete_table_row tbl (stat - 1)) (stat - 1)

/-- Data-row fill of `generate_report` (lines 251-273) for sample `k` of a
group sitting at row `r`: group name only on the first row, then id,
thickness, and the numeric fields (each numeric write bounds-guarded as in
the source, column 5 only when `include_ag`). -/
def fillDataRow (tbl : Tbl) (r k : Nat) (gname : String) (item : Item) (include_ag : Bool) : Tbl :=
  let tbl := setCellText tbl r 0 (if k = 0 then gname else "")
  let tbl := setCellText tbl r 1 item.id_num
  let tbl := setCellText tbl r 2 item.thick
  let L := cellsLen tbl r
  let tbl := if 3 < L then setCellText tbl r 3 (pyFloatRepr item.Rp) else tbl
  let tbl := if 4 < L then setCellText tbl r 4 (pyFloatRepr item.Rm) else tbl
  if include_ag then
    let tbl := if 5 < L then setCellText tbl r 5 (pyFloatRepr item.Ag) else tbl
    if 6 < L then setCellText tbl r 6 (pyFloatRepr item.A) else tbl
  else
    if 5 < L then setCellText tbl r 5 (pyFloatRepr item.A) else tbl

/-- Statistics-row fill of `generate_report` (lines 286-301). -/
def fillStatRow (tbl : Tbl) (stat : Nat) (st : StatsRec) (include_ag : Bool) : Tbl :=
  let tbl := setCellText tbl stat 0 "平均值±标准差"
  let L := cellsLen tbl stat
  let tbl := if 3 < L then setCellText tbl stat 3 st.Rp else tbl
  let tbl := if 4 < L then setCellText tbl stat 4 st.Rm else tbl
  if include_ag then
    let tbl := if 5 < L then setCellText tbl stat 5 st.Ag else tbl
    if 6 < L then setCellText tbl stat 6 st.A else tbl
  else
    if 5 < L then setCellText tbl stat 5 st.A else tbl

/-- Placeholder record used only as the (never reached) default of the
bounds-checked `getD` lookups below. -/
def dfltItem : Item := ⟨"", "", Frac.zero, Frac.zero, Frac.zero, Frac.zero, false⟩

/-- Body of the `i < len(batch_groups)` branch of the block loop
(lines 229-301): resize the block to the group's sample count, clear the
vertical merges of column 0, fill the data rows, re-merge the group-name
column, and fill the statistics row. -/
def processOneGroup (tbl : Tbl) (gname : String) (data : List Item) (include_ag : Bool)
    (start stat : Nat) : Tbl :=
  let slots := stat - start
  let n := data.length
  let grown :=
    if slots < n then growRows start (n - slots) tbl stat
    else if n < slots then shrinkRows (slots - n) tbl stat
    else (tbl, stat)
  let tbl1 := grown.1
  let stat1 := grown.2
  let tbl2 := (List.range n).foldl (fun t k => cleanMergeCol0 t (start + k)) tbl1
  let tbl3 := (List.range n).foldl
    (fun t k => fillDataRow t (start + k) k gname (data.getD k dfltItem) include_ag) tbl2
  let tbl4 :=
    if 1 < n then setCellText (mergeCol0Rows tbl3 start (start + n - 1)) start 0 gname
    else tbl3
  match calculate_stats data with
  | some st => fillStatRow tbl4 stat1 st include_ag
  | Option.none => tbl4

/-- One iteration of the backwards block loop (lines 211-301) at index `i`:
`continue` when `i ≥ GROUPS_PER_SLIDE`; re-scan the statistics rows and
`break` (`Option.none`) when `i` is past them; mutate only when the slide's
batch has an `i`-th group — there is no `else` branch. -/
def tensileBlockStep (batch : List (String × List Item)) (include_ag : Bool) (gps i : Nat)
    (tbl : Tbl) : Option Tbl :=
  if gps ≤ i then some tbl
  else
    let cur := statRowIndices tbl
    if cur.length ≤ i then Option.none
    else
      let stat := cur.getD i 0
      let start := if i = 0 then 1 else cur.getD (i - 1) 0 + 1
      if i < batch.length then
        let g := batch.getD i ("", [])
        some (processOneGroup tbl g.1 g.2 include_ag start stat)
      else some tbl

/-- The backwards loop `for i in range(len(avg_row_indices)-1, -1, -1)`:
fuel counts down through the indices, `Option.none` propagates the `break`. -/
def tensileBlocksGo (batch : List (String × List Item)) (include_ag : Bool) (gps : Nat) :
    Nat → Tbl → Tbl
  | 0, tbl => tbl
  | n + 1, tbl =>
    match tensileBlockStep batch include_ag gps n tbl with
    | some tbl2 => tensileBlocksGo batch include_ag gps n tbl2
    | Option.none => tbl

/-- Per-slide table processing of `generate_report`: optionally delete the
`Ag` column (index 5, only when the table has at least 6 columns), then run
the block loop over the slide's batch of groups. -/
def tensileProcessSlideTable (tbl : Tbl) (batch : List (String × List Item))
    (include_ag : Bool) (gps : Nat) : Tbl :=
  let tbl := if ¬ include_ag ∧ 6 ≤ tbl.gridCols then delete_table_column tbl 5 else tbl
  tensileBlocksGo batch include_ag gps (statRowIndices tbl).length tbl

/-! ## PDF hardness extraction (`processor.parse_hardness_report`) -/

/-- A value extracted from a statistics cell: the `float` conversion result,
or the raw string when conversion raised (lines 77-82). -/
inductive HNum where
  | q : Frac → HNum
  | s : String → HNum
deriving DecidableEq

/-- One extracted hardness record. -/
structure HRec where
  id : String
  mean : HNum
  sd : HNum
deriving DecidableEq

/-- Cell cleaning of line 40: `str(cell).strip() if cell else ""` — `None`
and the empty string are falsy. -/
def hCleanCell (c : Option String) : String :=
  match c with
  | Option.none => ""
  | some s => if s = "" then "" else pyStrip s

/-- Header join of line 45: cells joined by single spaces, newlines removed. -/
def headerJoin (header : List String) : String :=
  String.mk ((joinSep [' '] (header.map String.data)).filter (fun c => c ≠ '\n'))

/-- Statistics-table gate of lines 49-50: the joined header must contain an
SD token AND a mean token — exact-case substring tests. -/
def hQualifies (hstr : String) : Bool :=
  (hasTok hstr "SD" || hasTok hstr "Std") &&
    (hasTok hstr "平均" || hasTok hstr "Average" || hasTok hstr "Mean")

/-- Per-column cleaning of line 57: remove newlines, then strip. -/
def hColClean (s : String) : String := pyStrip (String.mk (s.data.filter (fun c => c ≠ '\n')))

/-- Mean-column test of line 58. -/
def hMeanTok (col : String) : Bool :=
  let c := hColClean col
  hasTok c "平均" || hasTok c "Average" || hasTok c "Mean"

/-- SD-column test of line 60. -/
def hSdTok (col : String) : Bool :=
  let c := hColClean col
  hasTok c "SD" || hasTok c "Std"

/-- Index assignment of lines 56-61: the loop overwrites the index on every
match, so the LAST matching column wins; `Option.none` models `-1`. -/
def lastIdxWhere (p : String → Bool) (l : List String) : Option Nat :=
  l.enum.foldl (fun acc x => if p x.2 then some x.1 else acc) Option.none

/-- Value conversion of lines 77-82: one `try` converts both cells, so either
both parse or both stay raw strings. -/
def hConvert (rm rs : String) : HNum × HNum :=
  match parsePyFloat rm, parsePyFloat rs with
  | some a, some b => (HNum.q a, HNum.q b)
  | _, _ => (HNum.s rm, HNum.s rs)

/-- One step of the data-row loop of lines 66-94: skip short rows, then a
row with both cells non-empty yields exactly one record stamped with the
running counter. -/
def hRowStep (mi si : Nat) (st : Nat × List HRec) (row : List String) : Nat × List HRec :=
  if row.length ≤ max mi si then st
  else
    let rm := row.getD mi ""
    let rs := row.getD si ""
    if rm ≠ "" ∧ rs ≠ "" then
      let v := hConvert rm rs
      (st.1 + 1, st.2 ++ [⟨toString st.1, v.1, v.2⟩])
    else st

/-- Data-row loop of lines 66-94 over one qualifying table. -/
def hRowsFold (mi si : Nat) (rows : List (List String)) (counter : Nat) :
    Nat × List HRec :=
  rows.foldl (hRowStep mi si) (counter, [])

/-- Per-table processing of lines 38-94, threading the document-wide
counter: clean the cells, require at least 2 rows, gate on the header, find
the mean/SD column indices, then run the data-row loop. -/
def hTableRecs (counter : Nat) (tbl : List (List (Option String))) : Nat × List HRec :=
  let ct := tbl.map (fun row => row.map hCleanCell)
  if ct.length < 2 then (counter, [])
  else
    let header := ct.headD []
    if hQualifies (headerJoin header) then
      match lastIdxWhere hMeanTok header, lastIdxWhere hSdTok header with
      | some mi, some si => hRowsFold mi si ct.tail counter
      | _, _ => (counter, [])
    else (counter, [])

/-- Per-table step of the page loop (lines 38-94): process the table with
the current counter and append its records. -/
def hTblStep (st : Nat × List HRec) (tbl : List (List (Option String))) : Nat × List HRec :=
  let r := hTableRecs st.1 tbl
  (r.1, st.2 ++ r.2)

/-- Embeds `processor.parse_hardness_report` over an already-extracted
document (a list of pages, each a list of tables): fold the per-table
processing with the auto-id counter starting at 1. -/
def parse_hardness_report (doc : List (List (List (List (Option String))))) : List HRec :=
  (doc.foldl (fun st page => page.foldl hTblStep st) (1, [])).2

/-! ## Error reporting (the strings the processors return) -/

/-- Embeds the extension dispatch of `tensile_processor.generate_report`
(lines 147-153): `Option.none` for a supported extension, otherwise the
in-band error string the function returns. -/
def tensileExtDispatch (ext : String) : Option String :=
  if ext = ".docx" then Option.none
  else if ext = ".xlsx" ∨ ext = ".xls" then Option.none
  else some "错误：不支持的文件格式"

/-- The in-band no-data string of `generate_report` line 155. -/
def tensileNoDataMsg : String := "错误：未提取到数据"

/-- Python `repr` of a list of (quote-free) strings, as an f-string renders
`{missing}`. -/
def pyReprStrList (l : List String) : String :=
  "[" ++ String.mk (joinSep (", ".data) (l.map (fun s => ("'" ++ s ++ "'").data))) ++ "]"

/-- Embeds the missing-columns return of `vda_processor.process_vda_report`
(line 88). -/
def vdaMissingColsMsg (missing : List String) : String :=
  "错误: Excel中找不到这些列: " ++ pyReprStrList missing ++ "，请检查表头。"

/-- Embeds the save-failure return of `process_vda_report` (line 145). -/
def vdaSaveFailMsg (e : String) : String :=
  "保存PPT失败 (请关闭已打开的同名PPT): " ++ e

/-- Embeds the no-groups return of `process_vda_report` (line 110). -/
def vdaNoGroupsMsg : String := "错误：未识别到任何有效的分组数据，请检查“试样编号”列。"

/-- Embeds the exception path of `parse_hardness_report` (lines 96-98): the
function returns `[{"error": str(e)}]` — a one-element list holding a dict,
inside the normal data channel. -/
def hardnessErrorReturn (e : String) : List (List (String × String)) := [[("error", e)]]

example : parse_hardness_report
    [[[[some "mean", some "sd"], [some "1.0", some "2.0"]]]] = [] := by decide
example : parse_hardness_report
    [[[[some "Mean", some "SD"], [some "1.0", some "2.0"]]]] =
    [⟨"1", HNum.q ⟨10, 10⟩, HNum.q ⟨20, 10⟩⟩] := by decide

/-! ## Concrete fixtures used by the witnesses and counterexamples -/

/-- Unmerged cell with one paragraph of text. -/
def tcPlain (t : String) : Tc := ⟨some ⟨Option.none, false⟩, [[t]]⟩

/-- Horizontally merged origin cell spanning `k` grid columns. -/
def tcSpan (k : Nat) (t : String) : Tc := ⟨some ⟨some k, false⟩, [[t]]⟩

/-- A 4-column VDA-style table whose data row starts with a 2-column merged
cell: header, one data row, one statistics row. -/
def vdaDemoTbl : Tbl :=
  ⟨4, [⟨[tcPlain "组别", tcPlain "编号", tcPlain "最大力", tcPlain "角度"]⟩,
       ⟨[tcSpan 2 "G1", tcPlain "980", tcPlain "60"]⟩,
       ⟨[tcPlain "平均值±标准差", tcPlain "", tcPlain "", tcPlain ""]⟩]⟩

/-- Template table with two blocks (3 data rows + 1 statistics row each);
the second block's data rows carry recognisable template text. -/
def tpl2 : Tbl :=
  ⟨4, [⟨[tcPlain "组", tcPlain "编号", tcPlain "厚度", tcPlain "Rp"]⟩,
       ⟨[tcPlain "D1", tcPlain "", tcPlain "", tcPlain ""]⟩,
       ⟨[tcPlain "D2", tcPlain "", tcPlain "", tcPlain ""]⟩,
       ⟨[tcPlain "D3", tcPlain "", tcPlain "", tcPlain ""]⟩,
       ⟨[tcPlain "平均值±标准差", tcPlain "", tcPlain "", tcPlain ""]⟩,
       ⟨[tcPlain "STALE1", tcPlain "", tcPlain "", tcPlain ""]⟩,
       ⟨[tcPlain "STALE2", tcPlain "", tcPlain "", tcPlain ""]⟩,
       ⟨[tcPlain "STALE3", tcPlain "", tcPlain "", tcPlain ""]⟩,
       ⟨[tcPlain "平均值±标准差", tcPlain "", tcPlain "", tcPlain ""]⟩]⟩

/-- A one-sample group used to run the block loop on `tpl2`. -/
def itemG : Item := ⟨"1", "1.5", ⟨500, 1⟩, ⟨600, 1⟩, ⟨10, 1⟩, ⟨12, 1⟩, false⟩

/-- Group member with value 100 on the 0-decimal fields and 10 on the
1-decimal fields. -/
def item100 : Item := ⟨"1", "1.5", ⟨100, 1⟩, ⟨100, 1⟩, ⟨10, 1⟩, ⟨10, 1⟩, false⟩

/-- Group member with value 102 on the 0-decimal fields and 12 on the
1-decimal fields. -/
def item102 : Item := ⟨"2", "1.5", ⟨102, 1⟩, ⟨102, 1⟩, ⟨12, 1⟩, ⟨12, 1⟩, false⟩

/-- Record extracted from a row whose `Rp` cell reads `"abc"` (all other
numeric cells read 1). -/
def itemAbc : Item :=
  excelItem "1" (PyVal.str "1.5") (PyVal.str "abc")
    (PyVal.num ⟨1, 1⟩) (PyVal.num ⟨1, 1⟩) (PyVal.num ⟨1, 1⟩) false

/-- Record extracted from a row whose `Rp` cell reads `"100"`. -/
def item100e : Item :=
  excelItem "2" (PyVal.str "1.5") (PyVal.str "100")
    (PyVal.num ⟨1, 1⟩) (PyVal.num ⟨1, 1⟩) (PyVal.num ⟨1, 1⟩) false

/-- A 5-column table with a 3-span merged cell in its first row and five
plain cells in its second. -/
def c4Tbl : Tbl :=
  ⟨5, [⟨[tcSpan 3 "merged", tcPlain "b", tcPlain "c"]⟩,
       ⟨[tcPlain "1", tcPlain "2", tcPlain "3", tcPlain "4", tcPlain "5"]⟩]⟩

/-- The data-row condition of the hardness extractor (lines 66-75) as a
Boolean predicate: long enough, both the mean and the SD cell non-empty. -/
def hRowValid (mi si : Nat) (row : List String) : Bool :=
  if row.length ≤ max mi si then false
  else decide (row.getD mi "" ≠ "" ∧ row.getD si "" ≠ "")

/-- Sequential decimal id strings `c, c+1, ..., c+k-1`. -/
def idsFrom (c k : Nat) : List String := (List.range k).map (fun i => toString (c + i))

/-! ## Helper lemmas -/

theorem prefB_append (pat r : List Char) : prefB pat (pat ++ r) = true := by
  induction pat with
  | nil => rfl
  | cons p ps ih => simp [prefB, ih]

theorem hasSub_of_append (pat : List Char) :
    ∀ pfx sfx : List Char, hasSub (pfx ++ pat ++ sfx) pat = true := by
  intro pfx
  induction pfx with
  | nil =>
    intro sfx
    rw [hasSub.eq_def]
    simp [prefB_append]
  | cons c t ih =>
    intro sfx
    rw [hasSub.eq_def]
    by_cases h : prefB pat (c :: (t ++ (pat ++ sfx))) = true
    · simp only [List.cons_append, List.append_assoc]
      simp [h]
    · simp only [List.cons_append, List.append_assoc]
      simp only [h, if_false]
      simpa [List.append_assoc] using ih sfx

theorem filterMap_filter_isSome (f : α → Option β) :
    ∀ l : List α, (l.filter (fun v => (f v).isSome)).filterMap f = l.filterMap f := by
  intro l
  induction l with
  | nil => rfl
  | cons a t ih =>
    cases h : f a with
    | none => simp [List.filter_cons, List.filterMap_cons, h, ih]
    | some b => simp [List.filter_cons, List.filterMap_cons, h, ih]

theorem dropWhile_head_false (p : α → Bool) :
    ∀ (l : List α) (x : α) (xs : List α), l.dropWhile p = x :: xs → p x = false := by
  intro l
  induction l with
  | nil => intro x xs h; simp [List.dropWhile] at h
  | cons a t ih =>
    intro x xs h
    rw [List.dropWhile_cons] at h
    by_cases hp : p a = true
    · rw [if_pos hp] at h; exact ih x xs h
    · rw [if_neg hp] at h
      cases h
      simpa using hp

theorem ceil_div_bounds (g p : Nat) (hg : 1 ≤ g) (hp : 1 ≤ p) :
    g ≤ (g + p - 1) / p * p ∧ ((g + p - 1) / p - 1) * p < g := by
  have hq : (g + p - 1) / p = (g - 1) / p + 1 := by
    have h : g + p - 1 = (g - 1) + p := by omega
    rw [h, Nat.add_div_right _ hp]
  have h1 := Nat.div_add_mod (g - 1) p
  have h2 := Nat.mod_lt (g - 1) hp
  constructor
  · have h3 : ((g - 1) / p + 1) * p = p * ((g - 1) / p) + p := by ring
    rw [hq, h3]; omega
  · have h5 : (g - 1) / p + 1 - 1 = (g - 1) / p := Nat.succ_sub_one _
    have h4 : (g - 1) / p * p = p * ((g - 1) / p) := Nat.mul_comm _ _
    rw [hq, h5, h4]; omega

theorem chunks_flatten (p : Nat) (hp : 1 ≤ p) :
    ∀ (n : Nat) (l : List String), l.length ≤ n →
      ((List.range ((l.length + p - 1) / p)).map (fun k => (l.drop (k * p)).take p)).flatten = l := by
  intro n
  induction n with
  | zero =>
    intro l hl
    have h0 : l = [] := List.eq_nil_of_length_eq_zero (Nat.le_zero.mp hl)
    subst h0
    have h1 : (0 + p - 1) / p = 0 := Nat.div_eq_of_lt (by omega)
    simp [h1]
  | succ n ih =>
    intro l hl
    by_cases hnil : l = []
    · subst hnil
      have h1 : (0 + p - 1) / p = 0 := Nat.div_eq_of_lt (by omega)
      simp [h1]
    · have hlen : 1 ≤ l.length := by
        have := List.length_pos.mpr hnil
        omega
      by_cases hle : l.length ≤ p
      · have htot : (l.length + p - 1) / p = 1 := by
          have h1 : 1 * p ≤ l.length + p - 1 := by omega
          have h2 : l.length + p - 1 < (1 + 1) * p := by omega
          exact Nat.div_eq_of_lt_le h1 h2
        rw [htot]
        have hr1 : List.range 1 = [0] := rfl
        rw [hr1]
        simp [List.take_of_length_le hle]
      · have hgt : p < l.length := by omega
        have htot : (l.length + p - 1) / p = ((l.drop p).length + p - 1) / p + 1 := by
          rw [List.length_drop]
          have h : l.length + p - 1 = (l.length - p + p - 1) + p := by omega
          rw [h, Nat.add_div_right _ hp]
        rw [htot, List.range_succ_eq_map, List.map_cons, List.map_map]
        have htail :
            (List.range (((l.drop p).length + p - 1) / p)).map
                ((fun k => (l.drop (k * p)).take p) ∘ Nat.succ) =
            (List.range (((l.drop p).length + p - 1) / p)).map
                (fun k => ((l.drop p).drop (k * p)).take p) := by
          apply List.map_congr_left
          intro k _
          simp only [Function.comp]
          have hs : Nat.succ k * p = k * p + p := Nat.succ_mul k p
          rw [hs, ← List.drop_drop, List.drop_drop, List.drop_drop, Nat.add_comm]
        rw [htail, List.flatten_cons, ih (l.drop p) (by rw [List.length_drop]; omega)]
        simp only [Nat.zero_mul, List.drop_zero]
        exact List.take_append_drop p l

/-! ## Claim theorems -/

/-- C10.  The numeric-conversion helper `to_float` is total: it agrees with
the successful parse (`toNumericOpt`) where one exists and returns `0.0`
otherwise (for `None` and for unparseable strings), never failing; and every
numeric field of an extracted record (`excelItem`) is produced by `to_float`,
hence is always a float. -/
theorem c10_to_float_total :
    (∀ v : PyVal, to_float v = (toNumericOpt v).getD Frac.zero) ∧
    (∀ (sn : String) (tv rp rm ag a : PyVal) (hn : Bool),
      (excelItem sn tv rp rm ag a hn).Rp = to_float rp ∧
      (excelItem sn tv rp rm ag a hn).Rm = to_float rm ∧
      (excelItem sn tv rp rm ag a hn).Ag = to_float ag ∧
      (excelItem sn tv rp rm ag a hn).A = to_float a) := by
  constructor
  · intro v
    cases v with
    | none => rfl
    | num f => rfl
    | str s =>
      simp only [to_float, toNumericOpt]
      cases h : parsePyFloat s <;> simp [h]
  · intro sn tv rp rm ag a hn
    exact ⟨rfl, rfl, rfl, rfl⟩

/-- C1.  Code bug, demonstrated at a concrete input: the shared helper
`ppt_utils.insert_table_row` does preserve the horizontal span of a cloned
data row (the clone of `vdaDemoTbl`'s data row still spans the full 4
columns, like every original row), but the VDA path's own clone routine
`vda_processor.add_table_row` strips `gridSpan` as well as `vMerge`, so its
clone's cells span only 3 of the table's 4 grid columns — exactly the
column-grid corruption the claim (and `ppt_utils`'s own comments) rule out. -/
theorem c1_row_clone_gridSpan_code_bug :
    vdaDemoTbl.gridCols = 4 ∧
    rowSpanTotal (vdaDemoTbl.trs.getD 1 ⟨[]⟩).tcs = 4 ∧
    rowSpanTotal (((insert_table_row vdaDemoTbl 2 1).trs.getD 2 ⟨[]⟩).tcs) = 4 ∧
    (∀ tr ∈ (insert_table_row vdaDemoTbl 2 1).trs, rowSpanTotal tr.tcs = 4) ∧
    rowSpanTotal (((add_table_row vdaDemoTbl 1).trs.getD 2 ⟨[]⟩).tcs) = 3 := by
  decide

/-- C2 counterexample.  The page capacity is not always inferred from the
template: for a template whose first table has exactly 2 statistics-row
markers the inference gives 2, but the VDA path replicates slides with the
hard-coded capacity 4 — for 8 groups it makes 2 slides where the claimed
inferred capacity would make 4. -/
theorem c2_hardcoded_vda_capacity_cex :
    inferPageCapacity tpl2 = 2 ∧
    vdaNumSlides 8 = 2 ∧
    total_slides 8 (inferPageCapacity tpl2) = 4 ∧
    vdaNumSlides 8 ≠ total_slides 8 (inferPageCapacity tpl2) := by
  decide

/-- C2 amended.  In the tensile path the page capacity is inferred by
counting the statistics-row markers of the template's first table — any
template with exactly 2 markers infers `P = 2`, independent of how many data
rows its blocks hold — while the VDA path uses the hard-coded capacity 4. -/
theorem c2_page_capacity_amended (tbl : Tbl) (h : tbl.trs.countP isStatRowT = 2) :
    inferPageCapacity tbl = 2 ∧ vdaGroupsPerSlide = 4 := by
  refine ⟨?_, rfl⟩
  simp [inferPageCapacity, h]

/-- Witness for the C2 amended theorem at the two-marker template `tpl2`. -/
theorem c2_page_capacity_amended_wit :
    tpl2.trs.countP isStatRowT = 2 ∧ (inferPageCapacity tpl2 = 2 ∧ vdaGroupsPerSlide = 4) :=
  ⟨by decide, c2_page_capacity_amended tpl2 (by decide)⟩

/-- C5 counterexample.  A field with zero valid numeric values does not
yield the sentinel `"/"`: the VDA statistics cell (`set_stat_cell`) emits
`"-"` for a series with no parseable value. -/
theorem c5_sentinel_cex :
    vdaStatText [PyVal.str "N/A"] 1 ⟨1, 1⟩ = "-" ∧ ("-" : String) ≠ "/" := by
  decide

/-- C5 amended.  For each numeric field the statistics output is a single
string `mean ± sample-standard-deviation` (`ddof = 1`), each part formatted
at the field's decimal precision: a single value `v` yields
`fmt v ± fmt 0` (standard deviation 0), `[100.0]` at 0 decimals yields
`"100±0"`, `[100.0, 102.0]` yields `"101±1"`; but a field with zero valid
numeric values yields the sentinel `"-"` in the VDA statistics path (the
tensile path's `"/"` branch is unreachable because `to_float` turns every
stored value into a float). -/
theorem c5_stats_format_amended (v : Frac) (d : Nat) (series : List PyVal) (df : Nat)
    (factor : Frac) (h : series.filterMap toNumericOpt = []) :
    statStr [v] d = fmtFixedF v d ++ "±" ++ fmtFixedF Frac.zero d ∧
    vdaStatText series df factor = "-" ∧
    statStr [⟨100, 1⟩] 0 = "100±0" ∧
    statStr [⟨100, 1⟩, ⟨102, 1⟩] 0 = "101±1" ∧
    calculate_stats [item100, item102] =
      some ⟨"101±1", "101±1", "11.0±1.4", "11.0±1.4"⟩ := by
  refine ⟨?_, ?_, by decide, by decide, by decide⟩
  · have hm : meanF [v] = v := by
      simp [meanF, sumF, Frac.add, Frac.zero, Frac.divNat]
    simp [statStr, hm]
  · simp [vdaStatText, h]

/-- Witness for the C5 amended theorem at `v = 7/2` and the all-unparseable
series `["N/A"]`. -/
theorem c5_stats_format_amended_wit :
    ([PyVal.str "N/A"].filterMap toNumericOpt = []) ∧
    (statStr [⟨7, 2⟩] 0 = fmtFixedF ⟨7, 2⟩ 0 ++ "±" ++ fmtFixedF Frac.zero 0 ∧
      vdaStatText [PyVal.str "N/A"] 1 ⟨1, 1⟩ = "-" ∧
      statStr [⟨100, 1⟩] 0 = "100±0" ∧
      statStr [⟨100, 1⟩, ⟨102, 1⟩] 0 = "101±1" ∧
      calculate_stats [item100, item102] =
        some ⟨"101±1", "101±1", "11.0±1.4", "11.0±1.4"⟩) :=
  ⟨by decide, c5_stats_format_amended ⟨7, 2⟩ 0 [PyVal.str "N/A"] 1 ⟨1, 1⟩ (by decide)⟩

/-- C6 counterexample.  In the tensile path a record value that fails to
parse is NOT excluded from the field's statistics: extraction stores
`to_float("abc") = 0.0`, so a group read from cells `"abc"` and `"100"` gets
`Rp` statistics `"50±71"` (the 0 is averaged in), not the `"100±0"` that
excluding the bad value — as the claim requires — would produce. -/
theorem c6_inclusion_cex :
    (calculate_stats [itemAbc, item100e]).map StatsRec.Rp = some "50±71" ∧
    statStr ([PyVal.str "abc", PyVal.str "100"].filterMap toNumericOpt) 0 = "100±0" ∧
    ("50±71" : String) ≠ "100±0" := by
  decide

/-- C6 amended.  The VDA statistics path (`set_stat_cell`) excludes
unparseable values from that field's mean/stdev computation only (its result
is unchanged by dropping the non-numeric entries), and never aborts; the
tensile path instead coerces unparseable values to `0.0` at extraction
(every stored field is `to_float` of the raw cell) and includes them, its
aggregation also never aborting (a nonempty group always yields statistics). -/
theorem c6_nonnumeric_amended (series : List PyVal) (d : Nat) (factor : Frac)
    (sn : String) (tv rp rm ag a : PyVal) (hn : Bool)
    (items : List Item) (h : items ≠ []) :
    vdaStatText series d factor
      = vdaStatText (series.filter (fun v => (toNumericOpt v).isSome)) d factor ∧
    (excelItem sn tv rp rm ag a hn).Rp = to_float rp ∧
    (∃ st, calculate_stats items = some st) := by
  refine ⟨?_, rfl, ?_⟩
  · simp only [vdaStatText, filterMap_filter_isSome]
  · simp [calculate_stats, h]

/-- Witness for the C6 amended theorem on a mixed series and a one-record
group. -/
theorem c6_nonnumeric_amended_wit :
    ([item100] ≠ []) ∧
    (vdaStatText [PyVal.str "abc", PyVal.num ⟨3, 1⟩] 1 ⟨1, 1⟩
        = vdaStatText ([PyVal.str "abc", PyVal.num ⟨3, 1⟩].filter
            (fun v => (toNumericOpt v).isSome)) 1 ⟨1, 1⟩ ∧
      (excelItem "1" (PyVal.str "t") (PyVal.str "abc") (PyVal.num ⟨1, 1⟩)
          (PyVal.num ⟨1, 1⟩) (PyVal.num ⟨1, 1⟩) false).Rp = to_float (PyVal.str "abc") ∧
      (∃ st, calculate_stats [item100] = some st)) :=
  ⟨by decide,
    c6_nonnumeric_amended [PyVal.str "abc", PyVal.num ⟨3, 1⟩] 1 ⟨1, 1⟩
      "1" (PyVal.str "t") (PyVal.str "abc") (PyVal.num ⟨1, 1⟩) (PyVal.num ⟨1, 1⟩)
      (PyVal.num ⟨1, 1⟩) false [item100] (by decide)⟩

theorem split_reconstruct (s : String) (h : s.data.contains '-' = true) :
    (splitId s).1.data ++ '-' :: (splitId s).2.data = s.data ∧
    (splitId s).2.data.contains '-' = false := by
  have hmem : '-' ∈ s.data := by simpa using h
  have hsplit : splitId s = rsplitDash s := by
    simp only [splitId]
    rw [if_pos h]
  rw [hsplit]
  have hmemr : '-' ∈ s.data.reverse := by simpa using hmem
  have hnn : s.data.reverse.dropWhile (fun c => c ≠ '-') ≠ [] := by
    intro hnil
    rw [List.dropWhile_eq_nil_iff] at hnil
    have := hnil '-' hmemr
    simp at this
  obtain ⟨x, xs, hx⟩ := List.exists_cons_of_ne_nil hnn
  have hxd : x = '-' := by
    have hf := dropWhile_head_false (fun c => decide (c ≠ '-')) s.data.reverse x xs hx
    simpa using hf
  subst hxd
  have hrec : s.data.reverse.takeWhile (fun c => c ≠ '-') ++ '-' :: xs = s.data.reverse := by
    rw [← hx]
    exact List.takeWhile_append_dropWhile _ _
  constructor
  · show ((s.data.reverse.dropWhile (fun c => c ≠ '-')).drop 1).reverse ++
        '-' :: (s.data.reverse.takeWhile (fun c => c ≠ '-')).reverse = s.data
    rw [hx]
    simp only [List.drop_one, List.tail_cons]
    have h3 := congrArg List.reverse hrec
    rw [List.reverse_reverse] at h3
    refine Eq.trans ?_ h3
    simp [List.reverse_append]
  · show (s.data.reverse.takeWhile (fun c => c ≠ '-')).reverse.contains '-' = false
    have hnotmem : '-' ∉ (s.data.reverse.takeWhile (fun c => c ≠ '-')).reverse := by
      intro hm
      rw [List.mem_reverse] at hm
      have := List.mem_takeWhile_imp hm
      simp at this
    simpa using hnotmem

/-- C7 counterexample.  Identifier extraction does not uniformly strip
parenthetical annotations: the VDA path's `parse_group` leaves the
annotation inside the sample number (`"A-07(重测)"` splits to
`("A", "07(重测)")`, not `("A", "07")`, and nothing is flagged), and the
excel path drops a separator-free identifier such as `"A"` instead of
defaulting its sample number to `"1"` (only the docx path follows the full
claimed rule, as the third conjunct shows). -/
theorem c7_vda_no_strip_cex :
    parse_group "A-07(重测)" = ("A", "07(重测)") ∧
    ("07(重测)" : String) ≠ "07" ∧
    docxExtractId "A-07(重测)" = ("A", "07", true) ∧
    cleanId "A" = "A" ∧
    excelRowKept "A" = false := by
  decide

/-- C7 amended.  The docx tensile path strips parenthetical annotations
(ASCII and full-width), flags a record exactly when cleaning changed the
identifier, and splits on the last separator: for any cleaned identifier
containing `"-"` the split satisfies `group ++ "-" ++ sample = identifier`
with a dash-free sample part, and a separator-free identifier becomes
`(identifier, "1")`.  The VDA path applies the same split but to the merely
whitespace-stripped identifier (no annotation stripping, no flag), and the
excel path skips rows whose cleaned identifier has no separator instead of
defaulting the sample number. -/
theorem c7_identifier_amended (s t u x : String)
    (h1 : t.data.contains '-' = true) (h2 : u.data.contains '-' = false)
    (h3 : (cleanId x).data.contains '-' = false) :
    ((splitId t).1.data ++ '-' :: (splitId t).2.data = t.data ∧
      (splitId t).2.data.contains '-' = false) ∧
    splitId u = (u, "1") ∧
    (∀ w, parse_group w = splitId (pyStrip w)) ∧
    (docxExtractId s).2.2 = decide (cleanId s ≠ s) ∧
    excelRowKept x = false := by
  refine ⟨split_reconstruct t h1, ?_, ?_, rfl, ?_⟩
  · simp only [splitId]
    rw [if_neg (by simpa using h2)]
  · intro w
    rfl
  · simp only [excelRowKept, h3, Bool.false_and]

/-- Witness for the C7 amended theorem at concrete identifiers. -/
theorem c7_identifier_amended_wit :
    ("A-07".data.contains '-' = true) ∧ ("A".data.contains '-' = false) ∧
    ((cleanId "A").data.contains '-' = false) ∧
    (((splitId "A-07").1.data ++ '-' :: (splitId "A-07").2.data = "A-07".data ∧
        (splitId "A-07").2.data.contains '-' = false) ∧
      splitId "A" = ("A", "1") ∧
      (∀ w, parse_group w = splitId (pyStrip w)) ∧
      (docxExtractId "B-2(x)").2.2 = decide (cleanId "B-2(x)" ≠ "B-2(x)") ∧
      excelRowKept "A" = false) :=
  ⟨by decide, by decide, by decide,
    c7_identifier_amended "B-2(x)" "A-07" "A" "A" (by decide) (by decide) (by decide)⟩

/-- C3 counterexample.  Unused block positions on the last slide are NOT
removed in the tensile path: running the block loop of `generate_report` on
the two-block template `tpl2` with a single group leaves 7 rows — the second
block's data rows still hold the template text (`"STALE1"` at row 3) and its
statistics-marker row is still present (markers at rows 2 AND 6) — instead
of the 3 rows that removing the unused block would leave. -/
theorem c3_stale_blocks_cex :
    inferPageCapacity tpl2 = 2 ∧
    (tensileProcessSlideTable tpl2 [("G", [itemG])] true (inferPageCapacity tpl2)).trs.length = 7 ∧
    rowText ((tensileProcessSlideTable tpl2 [("G", [itemG])] true
      (inferPageCapacity tpl2)).trs.getD 3 ⟨[]⟩) = "STALE1" ∧
    statRowIndices (tensileProcessSlideTable tpl2 [("G", [itemG])] true
      (inferPageCapacity tpl2)) = [2, 6] := by
  decide

/-- C3 amended.  For `G ≥ 1` groups and page capacity `P ≥ 1`, report
generation produces exactly `ceil(G/P)` slides (`total_slides` is the least
count whose capacity covers `G`), the per-slide batches are the consecutive
chunks of up to `P` groups (they concatenate back to the full group list,
each is nonempty and at most `P` long, and the VDA chunking agrees with the
same slicing at its capacity 4); but an unused block position on the last
slide is left in place with the template's content rather than removed: the
tensile block-loop iteration for an in-capacity index `i` beyond the batch
leaves the table unchanged. -/
theorem c3_slides_chunks_amended (g p : Nat) (hg : 1 ≤ g) (hp : 1 ≤ p)
    (names : List String) (batch : List (String × List Item)) (ag : Bool)
    (gps i : Nat) (tbl : Tbl)
    (h1 : i < gps) (h2 : i < (statRowIndices tbl).length) (h3 : batch.length ≤ i) :
    (g ≤ total_slides g p * p ∧ (total_slides g p - 1) * p < g) ∧
    ((List.range (total_slides names.length p)).map (fun k => sliceBatch names p k)).flatten
      = names ∧
    (∀ k, (sliceBatch names p k).length ≤ p) ∧
    (∀ k, k < total_slides names.length p → sliceBatch names p k ≠ []) ∧
    vdaNumSlides g = total_slides g vdaGroupsPerSlide ∧
    vdaChunks names
      = (List.range (total_slides names.length vdaGroupsPerSlide)).map
          (fun k => sliceBatch names vdaGroupsPerSlide k) ∧
    tensileBlockStep batch ag gps i tbl = some tbl := by
  refine ⟨ceil_div_bounds g p hg hp, ?_, ?_, ?_, rfl, ?_, ?_⟩
  · exact chunks_flatten p hp names.length names le_rfl
  · intro k
    simp only [sliceBatch, List.length_take, List.length_drop]
    omega
  · intro k hk
    have hlen1 : 1 ≤ names.length := by
      by_contra hc
      have h0 : names.length = 0 := by omega
      rw [h0] at hk
      have hz : total_slides 0 p = 0 := Nat.div_eq_of_lt (by omega)
      omega
    have hb := ceil_div_bounds names.length p hlen1 hp
    have hk1 : k ≤ total_slides names.length p - 1 := by omega
    have hkp : k * p ≤ (total_slides names.length p - 1) * p := Nat.mul_le_mul_right p hk1
    have hlt : k * p < names.length := lt_of_le_of_lt hkp hb.2
    have hlen2 : (sliceBatch names p k).length ≠ 0 := by
      simp only [sliceBatch, List.length_take, List.length_drop]
      omega
    intro hnil
    exact hlen2 (by rw [hnil]; rfl)
  · apply List.map_congr_left
    intro k _
    simp [sliceBatch, vdaGroupsPerSlide, Nat.mul_comm]
  · simp only [tensileBlockStep]
    rw [if_neg (by omega : ¬ gps ≤ i)]
    rw [if_neg (by omega : ¬ (statRowIndices tbl).length ≤ i)]
    rw [if_neg (by omega : ¬ i < batch.length)]

/-- Witness for the C3 amended theorem: `G = 10`, `P = 4`, a 3-name list,
and the block-loop iteration `i = 1` on `tpl2` with a 1-group batch. -/
theorem c3_slides_chunks_amended_wit :
    (1 ≤ 10 ∧ 1 ≤ 4 ∧ 1 < 2 ∧ 1 < (statRowIndices tpl2).length ∧
      ([("G", [itemG])] : List (String × List Item)).length ≤ 1) ∧
    ((10 ≤ total_slides 10 4 * 4 ∧ (total_slides 10 4 - 1) * 4 < 10) ∧
      ((List.range (total_slides (["a", "b", "c"] : List String).length 4)).map
          (fun k => sliceBatch ["a", "b", "c"] 4 k)).flatten = ["a", "b", "c"] ∧
      (∀ k, (sliceBatch ["a", "b", "c"] 4 k).length ≤ 4) ∧
      (∀ k, k < total_slides (["a", "b", "c"] : List String).length 4 →
        sliceBatch ["a", "b", "c"] 4 k ≠ []) ∧
      vdaNumSlides 10 = total_slides 10 vdaGroupsPerSlide ∧
      vdaChunks ["a", "b", "c"]
        = (List.range (total_slides (["a", "b", "c"] : List String).length
            vdaGroupsPerSlide)).map
            (fun k => sliceBatch ["a", "b", "c"] vdaGroupsPerSlide k) ∧
      tensileBlockStep [("G", [itemG])] true 2 1 tpl2 = some tpl2) :=
  ⟨⟨by decide, by decide, by decide, by decide, by decide⟩,
    c3_slides_chunks_amended 10 4 (by decide) (by decide) ["a", "b", "c"]
      [("G", [itemG])] true 2 1 tpl2 (by decide) (by decide) (by decide)⟩

theorem rowSpanTotal_cons (x : Tc) (l : List Tc) :
    rowSpanTotal (x :: l) = effSpan x + rowSpanTotal l := by
  simp [rowSpanTotal]

theorem effSpan_dec (tc : Tc) (h : 1 < effSpan tc) :
    effSpan (decSpanTc tc) + 1 = effSpan tc := by
  cases hp : tc.tcPr with
  | none => simp [effSpan, hp] at h
  | some p =>
    cases hg : p.gridSpan with
    | none => simp [effSpan, hp, hg] at h
    | some v =>
      have h2 : 1 < v := by simpa [effSpan, hp, hg] using h
      have hd : decSpanTc tc = { tc with tcPr := some { p with gridSpan := some (v - 1) } } := by
        simp [decSpanTc, hp, hg, h2]
      rw [hd]
      simp [effSpan, hp, hg]
      omega

theorem deleteCol_aux (j : Nat) :
    ∀ (tcs : List Tc) (visual s : Nat), coverSpan j visual tcs = some s →
      (1 < s →
        (deleteColCells j visual tcs).length = tcs.length ∧
        rowSpanTotal (deleteColCells j visual tcs) + 1 = rowSpanTotal tcs) ∧
      (s = 1 →
        (deleteColCells j visual tcs).length + 1 = tcs.length ∧
        rowSpanTotal (deleteColCells j visual tcs) + 1 = rowSpanTotal tcs) := by
  intro tcs
  induction tcs with
  | nil =>
    intro visual s h
    simp [coverSpan] at h
  | cons tc rest ih =>
    intro visual s h
    rw [coverSpan] at h
    rw [deleteColCells]
    by_cases hhit : visual ≤ j ∧ j < visual + effSpan tc
    · rw [if_pos hhit] at h ⊢
      have hs : s = effSpan tc := by
        simpa using h.symm
      subst hs
      constructor
      · intro hgt
        rw [if_pos hgt]
        refine ⟨by simp, ?_⟩
        rw [rowSpanTotal_cons, rowSpanTotal_cons]
        have := effSpan_dec tc hgt
        omega
      · intro h1
        rw [if_neg (by omega)]
        refine ⟨by simp, ?_⟩
        rw [rowSpanTotal_cons, h1]
        omega
    · rw [if_neg hhit] at h ⊢
      have := ih (visual + effSpan tc) s h
      constructor
      · intro hgt
        obtain ⟨hl, hsp⟩ := this.1 hgt
        refine ⟨by simp [hl], ?_⟩
        rw [rowSpanTotal_cons, rowSpanTotal_cons]
        omega
      · intro h1
        obtain ⟨hl, hsp⟩ := this.2 h1
        refine ⟨by simp [hl], ?_⟩
        rw [rowSpanTotal_cons, rowSpanTotal_cons]
        omega

/-- C4.  Removing column `j` from a table: the grid definition loses exactly
one column (regardless of the number of rows), each row is rewritten by the
single covering-cell scan, and in every row whose cell covering column `j`
has span `s`: if `s > 1` the cell is kept with its span decremented (same
number of cells, total span one less), and if `s = 1` the cell is removed
entirely (one cell fewer, total span one less). -/
theorem c4_delete_column_spec (tbl : Tbl) (j : Nat) (h : j < tbl.gridCols) :
    (delete_table_column tbl j).gridCols + 1 = tbl.gridCols ∧
    (delete_table_column tbl j).trs = tbl.trs.map (fun tr => ⟨deleteColCells j 0 tr.tcs⟩) ∧
    ∀ tr ∈ tbl.trs, ∀ s, coverSpan j 0 tr.tcs = some s →
      (1 < s →
        (deleteColCells j 0 tr.tcs).length = tr.tcs.length ∧
        rowSpanTotal (deleteColCells j 0 tr.tcs) + 1 = rowSpanTotal tr.tcs) ∧
      (s = 1 →
        (deleteColCells j 0 tr.tcs).length + 1 = tr.tcs.length ∧
        rowSpanTotal (deleteColCells j 0 tr.tcs) + 1 = rowSpanTotal tr.tcs) := by
  refine ⟨?_, rfl, ?_⟩
  · simp only [delete_table_column, if_pos h]
    omega
  · intro tr _ s hs
    exact deleteCol_aux j tr.tcs 0 s hs

/-- Witness for C4 on the 5-column fixture `c4Tbl` at column 1: its first
row's covering cell has span 3 (decremented to 2 in place), its second row's
covering cell has span 1 (removed). -/
theorem c4_delete_column_spec_wit :
    (1 < c4Tbl.gridCols) ∧
    ((delete_table_column c4Tbl 1).gridCols + 1 = c4Tbl.gridCols ∧
      (delete_table_column c4Tbl 1).trs
        = c4Tbl.trs.map (fun tr => ⟨deleteColCells 1 0 tr.tcs⟩) ∧
      ∀ tr ∈ c4Tbl.trs, ∀ s, coverSpan 1 0 tr.tcs = some s →
        (1 < s →
          (deleteColCells 1 0 tr.tcs).length = tr.tcs.length ∧
          rowSpanTotal (deleteColCells 1 0 tr.tcs) + 1 = rowSpanTotal tr.tcs) ∧
        (s = 1 →
          (deleteColCells 1 0 tr.tcs).length + 1 = tr.tcs.length ∧
          rowSpanTotal (deleteColCells 1 0 tr.tcs) + 1 = rowSpanTotal tr.tcs)) :=
  ⟨by decide, c4_delete_column_spec c4Tbl 1 (by decide)⟩

theorem idsFrom_succ (c k : Nat) : idsFrom c (k + 1) = toString c :: idsFrom (c + 1) k := by
  simp only [idsFrom, List.range_succ_eq_map, List.map_cons, List.map_map, Nat.add_zero]
  congr 1
  apply List.map_congr_left
  intro i _
  simp only [Function.comp]
  congr 1
  omega

theorem idsFrom_append : ∀ (L : Nat) (b K : Nat),
    idsFrom b L ++ idsFrom (b + L) K = idsFrom b (L + K) := by
  intro L
  induction L with
  | zero => intro b K; simp [idsFrom]
  | succ L ih =>
    intro b K
    rw [idsFrom_succ, List.cons_append]
    have h1 : b + (L + 1) = (b + 1) + L := by omega
    rw [h1, ih (b + 1) K]
    have h2 : L + 1 + K = (L + K) + 1 := by omega
    rw [h2, idsFrom_succ]

theorem hRowsFoldGen (mi si : Nat) :
    ∀ (rows : List (List String)) (c : Nat) (acc : List HRec),
      (rows.foldl (hRowStep mi si) (c, acc)).1 = c + rows.countP (hRowValid mi si) ∧
      (rows.foldl (hRowStep mi si) (c, acc)).2.length
        = acc.length + rows.countP (hRowValid mi si) ∧
      (rows.foldl (hRowStep mi si) (c, acc)).2.map HRec.id
        = acc.map HRec.id ++ idsFrom c (rows.countP (hRowValid mi si)) := by
  intro rows
  induction rows with
  | nil =>
    intro c acc
    simp [idsFrom]
  | cons row t ih =>
    intro c acc
    rw [List.foldl_cons]
    by_cases hlen : row.length ≤ max mi si
    · have hstep : hRowStep mi si (c, acc) row = (c, acc) := by
        unfold hRowStep
        rw [if_pos hlen]
      have hval : hRowValid mi si row = false := by
        unfold hRowValid
        rw [if_pos hlen]
      have hcnt : (row :: t).countP (hRowValid mi si) = t.countP (hRowValid mi si) := by
        simp [List.countP_cons, hval]
      rw [hstep, hcnt]
      exact ih c acc
    · by_cases hne : row.getD mi "" ≠ "" ∧ row.getD si "" ≠ ""
      · have hstep : hRowStep mi si (c, acc) row
            = (c + 1, acc ++ [⟨toString c,
                (hConvert (row.getD mi "") (row.getD si "")).1,
                (hConvert (row.getD mi "") (row.getD si "")).2⟩]) := by
          unfold hRowStep
          rw [if_neg hlen, if_pos hne]
        have hval : hRowValid mi si row = true := by
          unfold hRowValid
          rw [if_neg hlen]
          simp only [decide_eq_true_eq]
          exact hne
        have hcnt : (row :: t).countP (hRowValid mi si) = t.countP (hRowValid mi si) + 1 := by
          simp [List.countP_cons, hval]
        rw [hstep, hcnt]
        obtain ⟨ha, hb, hc⟩ := ih (c + 1)
          (acc ++ [⟨toString c,
            (hConvert (row.getD mi "") (row.getD si "")).1,
            (hConvert (row.getD mi "") (row.getD si "")).2⟩])
        refine ⟨by rw [ha]; omega, ?_, ?_⟩
        · rw [hb]
          simp only [List.length_append, List.length_singleton]
          omega
        · rw [hc]
          simp only [List.map_append, List.map_cons, List.map_nil]
          rw [List.append_assoc, idsFrom_succ]
          rfl
      · have hstep : hRowStep mi si (c, acc) row = (c, acc) := by
          unfold hRowStep
          rw [if_neg hlen, if_neg hne]
        have hval : hRowValid mi si row = false := by
          unfold hRowValid
          rw [if_neg hlen]
          simp only [decide_eq_false_iff_not]
          exact hne
        have hcnt : (row :: t).countP (hRowValid mi si) = t.countP (hRowValid mi si) := by
          simp [List.countP_cons, hval]
        rw [hstep, hcnt]
        exact ih c acc

theorem hTableRecs_spec (c : Nat) (t : List (List (Option String))) :
    (hTableRecs c t).1 = c + (hTableRecs c t).2.length ∧
    (hTableRecs c t).2.map HRec.id = idsFrom c (hTableRecs c t).2.length := by
  unfold hTableRecs
  by_cases h2 : (t.map (fun row => row.map hCleanCell)).length < 2
  · rw [if_pos h2]
    simp [idsFrom]
  · rw [if_neg h2]
    by_cases hq : hQualifies (headerJoin ((t.map (fun row => row.map hCleanCell)).headD []))
      = true
    · rw [if_pos hq]
      cases hm : lastIdxWhere hMeanTok ((t.map (fun row => row.map hCleanCell)).headD []) with
      | none => simp [idsFrom]
      | some mi =>
        cases hs : lastIdxWhere hSdTok ((t.map (fun row => row.map hCleanCell)).headD []) with
        | none => simp [idsFrom]
        | some si =>
          simp only
          obtain ⟨ha, hb, hc⟩ :=
            hRowsFoldGen mi si (t.map (fun row => row.map hCleanCell)).tail c []
          unfold hRowsFold
          constructor
          · rw [ha, hb]
            simp
          · rw [hc, hb]
            simp
    · rw [if_neg hq]
      simp [idsFrom]

theorem hTblFold_inv :
    ∀ (tbls : List (List (List (Option String)))) (st : Nat × List HRec) (b : Nat),
      st.1 = b + st.2.length → st.2.map HRec.id = idsFrom b st.2.length →
      (tbls.foldl hTblStep st).1 = b + (tbls.foldl hTblStep st).2.length ∧
      (tbls.foldl hTblStep st).2.map HRec.id = idsFrom b (tbls.foldl hTblStep st).2.length := by
  intro tbls
  induction tbls with
  | nil =>
    intro st b hinv1 hinv2
    exact ⟨hinv1, hinv2⟩
  | cons t rest ih =>
    intro st b hinv1 hinv2
    rw [List.foldl_cons]
    obtain ⟨ha, hb⟩ := hTableRecs_spec st.1 t
    apply ih
    · show (hTableRecs st.1 t).1 = b + (st.2 ++ (hTableRecs st.1 t).2).length
      rw [ha, hinv1, List.length_append]
      omega
    · show (st.2 ++ (hTableRecs st.1 t).2).map HRec.id
        = idsFrom b (st.2 ++ (hTableRecs st.1 t).2).length
      rw [List.map_append, hinv2, hb, hinv1, List.length_append, idsFrom_append]

theorem hDocFold_inv :
    ∀ (pages : List (List (List (List (Option String))))) (st : Nat × List HRec) (b : Nat),
      st.1 = b + st.2.length → st.2.map HRec.id = idsFrom b st.2.length →
      (pages.foldl (fun s page => page.foldl hTblStep s) st).1
        = b + (pages.foldl (fun s page => page.foldl hTblStep s) st).2.length ∧
      (pages.foldl (fun s page => page.foldl hTblStep s) st).2.map HRec.id
        = idsFrom b (pages.foldl (fun s page => page.foldl hTblStep s) st).2.length := by
  intro pages
  induction pages with
  | nil =>
    intro st b hinv1 hinv2
    exact ⟨hinv1, hinv2⟩
  | cons page rest ih =>
    intro st b hinv1 hinv2
    rw [List.foldl_cons]
    obtain ⟨h1, h2⟩ := hTblFold_inv page st b hinv1 hinv2
    exact ih (page.foldl hTblStep st) b h1 h2

/-- C8 counterexample.  The statistics-table gate is not case-insensitive: a
table whose header reads lowercase `"mean"` / `"sd"` is rejected (no record
extracted) while the same table with `"Mean"` / `"SD"` qualifies — the
matching is exact-case substring search on the tokens `SD`/`Std` and
`平均`/`Average`/`Mean`. -/
theorem c8_case_sensitive_cex :
    parse_hardness_report [[[[some "mean", some "sd"], [some "1.0", some "2.0"]]]] = [] ∧
    parse_hardness_report [[[[some "Mean", some "SD"], [some "1.0", some "2.0"]]]]
      = [⟨"1", HNum.q ⟨10, 10⟩, HNum.q ⟨20, 10⟩⟩] := by
  decide

/-- C8 amended.  PDF hardness extraction treats a table as a statistics
table only if its header contains both an SD token (`SD`/`Std`) and a mean
token (`平均`/`Average`/`Mean`) by case-sensitive substring match (a
non-qualifying table contributes nothing); for a qualifying table every data
row that is long enough and has both cells non-empty yields exactly one
record; and the records of the whole document are auto-numbered
sequentially starting at 1, regardless of any id printed in the source. -/
theorem c8_hardness_amended (doc : List (List (List (List (Option String)))))
    (c c2 : Nat) (t : List (List (Option String))) (mi si : Nat) (rows : List (List String))
    (hq : hQualifies (headerJoin ((t.map (fun row => row.map hCleanCell)).headD [])) = false) :
    (parse_hardness_report doc).map HRec.id = idsFrom 1 (parse_hardness_report doc).length ∧
    hTableRecs c t = (c, []) ∧
    (hRowsFold mi si rows c2).2.length = rows.countP (hRowValid mi si) := by
  refine ⟨?_, ?_, ?_⟩
  · unfold parse_hardness_report
    exact (hDocFold_inv doc (1, []) 1 (by simp) (by simp [idsFrom])).2
  · unfold hTableRecs
    by_cases h2 : (t.map (fun row => row.map hCleanCell)).length < 2
    · rw [if_pos h2]
    · have hq2 : ¬ (hQualifies (headerJoin ((t.map (fun row => row.map hCleanCell)).headD []))
          = true) := by
        rw [hq]
        simp
      rw [if_neg h2, if_neg hq2]
  · obtain ⟨-, hb, -⟩ := hRowsFoldGen mi si rows c2 []
    unfold hRowsFold
    rw [hb]
    simp

/-- Witness for the C8 amended theorem on a two-table document and a
lowercase-header (hence non-qualifying) table. -/
theorem c8_hardness_amended_wit :
    (hQualifies (headerJoin ((([[some "mean", some "sd"], [some "1.0", some "2.0"]]
        : List (List (Option String))).map (fun row => row.map hCleanCell)).headD []))
      = false) ∧
    ((parse_hardness_report [[[[some "Mean", some "SD"], [some "7", some "8"], [some "9", some "10"]]]]).map HRec.id
        = idsFrom 1 (parse_hardness_report
            [[[[some "Mean", some "SD"], [some "7", some "8"], [some "9", some "10"]]]]).length ∧
      hTableRecs 5 [[some "mean", some "sd"], [some "1.0", some "2.0"]] = (5, []) ∧
      (hRowsFold 0 1 [["7", "8"], ["", "9"], ["5", "6"]] 3).2.length
        = ([["7", "8"], ["", "9"], ["5", "6"]] : List (List String)).countP (hRowValid 0 1)) :=
  ⟨by decide,
    c8_hardness_amended [[[[some "Mean", some "SD"], [some "7", some "8"], [some "9", some "10"]]]]
      5 3 [[some "mean", some "sd"], [some "1.0", some "2.0"]] 0 1
      [["7", "8"], ["", "9"], ["5", "6"]] (by decide)⟩

theorem joinSep_elem_decomp (sep : List Char) :
    ∀ (l : List (List Char)) (e : List Char), e ∈ l →
      ∃ x y, joinSep sep l = x ++ e ++ y := by
  intro l
  induction l with
  | nil =>
    intro e he
    cases he
  | cons a t ih =>
    intro e he
    cases he with
    | head =>
      cases t with
      | nil => exact ⟨[], [], by simp [joinSep]⟩
      | cons b t2 =>
        refine ⟨[], sep ++ joinSep sep (b :: t2), ?_⟩
        simp [joinSep]
    | tail _ hmem =>
      have hne : t ≠ [] := by
        intro h0
        rw [h0] at hmem
        cases hmem
      obtain ⟨b, t2, hbt⟩ := List.exists_cons_of_ne_nil hne
      subst hbt
      obtain ⟨x, y, hxy⟩ := ih e hmem
      refine ⟨a ++ sep ++ x, y, ?_⟩
      rw [joinSep, hxy]
      simp [List.append_assoc]

theorem missing_col_named (missing : List String) (name : String) (hm : name ∈ missing) :
    hasSub (vdaMissingColsMsg missing).data name.data = true := by
  have hmem2 : ("'" ++ name ++ "'").data ∈ missing.map (fun s => ("'" ++ s ++ "'").data) :=
    List.mem_map_of_mem _ hm
  obtain ⟨x, y, hxy⟩ := joinSep_elem_decomp (", ".data) _ _ hmem2
  have hdata : (vdaMissingColsMsg missing).data
      = ("错误: Excel中找不到这些列: [".data ++ x ++ "'".data)
        ++ name.data
        ++ ("'".data ++ y ++ "]，请检查表头。".data) := by
    show ("错误: Excel中找不到这些列: " ++ pyReprStrList missing ++ "，请检查表头。").data = _
    rw [String.data_append, String.data_append]
    show "错误: Excel中找不到这些列: ".data
        ++ ("[" ++ String.mk (joinSep (", ".data) (missing.map (fun s => ("'" ++ s ++ "'").data)))
            ++ "]").data ++ "，请检查表头。".data = _
    rw [String.data_append, String.data_append, hxy]
    have he : ("'" ++ name ++ "'").data = "'".data ++ name.data ++ "'".data := by
      rw [String.data_append, String.data_append]
    rw [he]
    show "错误: Excel中找不到这些列: ".data ++ ("[".data
        ++ (x ++ ("'".data ++ name.data ++ "'".data) ++ y) ++ "]".data)
        ++ "，请检查表头。".data = _
    have hbr : "错误: Excel中找不到这些列: ".data ++ "[".data
        = "错误: Excel中找不到这些列: [".data := by decide
    rw [← hbr]
    simp [List.append_assoc]
  rw [hdata]
  exact hasSub_of_append name.data _ _

/-- C9 counterexample.  Failures are not reported as typed errors of the
claimed taxonomy, and errors are silently swallowed: the unsupported-format
outcome of `generate_report` is an in-band Chinese message string returned
through the same channel as a success message (no `UnsupportedFormatError`
type exists anywhere in the source), the PDF parser's failure value is a
dict placed inside its normal record list, and a numeric parse failure is
silently coerced — `to_float "abc"` is indistinguishable from the successful
parse `to_float "0"`. -/
theorem c9_untyped_errors_cex :
    tensileExtDispatch ".txt" = some "错误：不支持的文件格式" ∧
    hardnessErrorReturn "boom" = [[("error", "boom")]] ∧
    parsePyFloat "abc" = Option.none ∧
    parsePyFloat "0" = some ⟨0, 1⟩ ∧
    to_float (PyVal.str "abc") = to_float (PyVal.str "0") := by
  decide

/-- C9 amended.  Failure modes are reported as distinct in-band message
strings rather than typed exceptions: supported extensions pass the dispatch
while any other extension yields the fixed unsupported-format message;
missing required columns yield a message that names every missing column;
zero extracted groups and save failures yield their own fixed messages, all
pairwise distinct; and some low-level failures (numeric parsing) are
silently coerced to defaults rather than reported. -/
theorem c9_error_reporting_amended (missing : List String) (name : String)
    (hm : name ∈ missing) (e : String) :
    hasSub (vdaMissingColsMsg missing).data name.data = true ∧
    tensileExtDispatch ".docx" = Option.none ∧
    tensileExtDispatch ".xlsx" = Option.none ∧
    tensileExtDispatch ".xls" = Option.none ∧
    tensileExtDispatch ".csv" = some "错误：不支持的文件格式" ∧
    vdaSaveFailMsg e = "保存PPT失败 (请关闭已打开的同名PPT): " ++ e ∧
    tensileNoDataMsg ≠ vdaNoGroupsMsg ∧
    tensileNoDataMsg ≠ "错误：不支持的文件格式" ∧
    (∀ v : PyVal, to_float v = (toNumericOpt v).getD Frac.zero) := by
  refine ⟨missing_col_named missing name hm, by decide, by decide, by decide, by decide,
    rfl, by decide, by decide, ?_⟩
  intro v
  cases v with
  | none => rfl
  | num f => rfl
  | str s =>
    simp only [to_float, toNumericOpt]
    cases h : parsePyFloat s <;> simp [h]

/-- Witness for the C9 amended theorem with `MaxForce` among the missing
columns. -/
theorem c9_error_reporting_amended_wit :
    ("MaxForce" ∈ ["SampleID", "MaxForce"]) ∧
    (hasSub (vdaMissingColsMsg ["SampleID", "MaxForce"]).data "MaxForce".data = true ∧
      tensileExtDispatch ".docx" = Option.none ∧
      tensileExtDispatch ".xlsx" = Option.none ∧
      tensileExtDispatch ".xls" = Option.none ∧
      tensileExtDispatch ".csv" = some "错误：不支持的文件格式" ∧
      vdaSaveFailMsg "err" = "保存PPT失败 (请关闭已打开的同名PPT): " ++ "err" ∧
      tensileNoDataMsg ≠ vdaNoGroupsMsg ∧
      tensileNoDataMsg ≠ "错误：不支持的文件格式" ∧
      (∀ v : PyVal, to_float v = (toNumericOpt v).getD Frac.zero)) :=
  ⟨by decide,
    c9_error_reporting_amended ["SampleID", "MaxForce"] "MaxForce" (by decide) "err"⟩
